import Mathlib

/-!
Verification of the news-backend REST API against its specification.

The repository is a TypeScript/Express/Prisma backend. This file gives a
shallow embedding of the parts of it the claims are about:

* the pagination helper (src/utils/pagination.ts, getPagination);
* the slug utilities (src/utils/slugify.ts, generateSlug and
  generateUniqueSlug) — the while loop is embedded with explicit fuel,
  since the source loop terminates only when the caller-supplied
  existence predicate eventually answers false;
* the authentication middleware (src/middleware/auth.ts, authenticate and
  optionalAuthenticate) — the JWT verifier and the Prisma user lookup are
  external calls, embedded as function parameters;
* the comment service (src/services/commentService.ts: createComment,
  getArticleComments, deleteComment, and the moderation actions
  approveComment / rejectComment / markAsSpam / updateComment) — the
  Prisma store is embedded as a list of comment rows;
* the article service (src/services/articleService.ts: createArticle,
  updateArticle, publishArticle, archiveArticle) — only the fields the
  publication-state claims mention (status, publishedAt) are kept, and
  Date.now is an explicit numeric parameter.

Errors thrown as ApiError(status, message) in the source become the
error branch of an Except; calling next() with the request untouched or
with a user attached becomes the ok branch.
-/

/-- An ApiError of the source: an HTTP status code with a message. -/
structure ApiErr where
  status : Nat
  message : String
deriving DecidableEq, Repr

/-! ## Pagination (src/utils/pagination.ts) -/

/-- Result record of getPagination, as in src/utils/pagination.ts. -/
structure PaginationResult where
  skip : Int
  take : Int
  page : Int
  limit : Int
deriving DecidableEq, Repr

/-- getPagination from src/utils/pagination.ts.  The source reads
`Math.max(1, params.page || 1)` — an absent page and a page of 0 (falsy)
both become 1 — and `Math.min(100, Math.max(1, params.limit ?? 10))` —
only an absent limit defaults to 10.  Absent fields are `none`. -/
def getPagination (pageParam limitParam : Option Int) : PaginationResult :=
  let page : Int := max 1 (match pageParam with
    | none => 1
    | some v => if v = 0 then 1 else v)
  let limit : Int := min 100 (max 1 (match limitParam with
    | none => 10
    | some v => v))
  let skip : Int := (page - 1) * limit
  { skip := skip, take := limit, page := page, limit := limit }

/-! ## Slug generation (src/utils/slugify.ts) -/

/-- Auxiliary splitter: cut a character list at non-alphanumeric
characters, dropping empty pieces (so runs collapse and the ends are
trimmed).  The accumulator holds the current word reversed. -/
def splitNonAlnum : List Char → List Char → List String
  | [], acc => if acc.isEmpty then [] else [String.mk acc.reverse]
  | c :: cs, acc =>
    if c.isAlphanum then splitNonAlnum cs (c :: acc)
    else if acc.isEmpty then splitNonAlnum cs []
    else String.mk acc.reverse :: splitNonAlnum cs []

/-- Modelled from the spec: generateSlug in src/utils/slugify.ts calls the
external slugify library with lower/strict/trim options, whose code is not
in the repository; section 4.5 of the spec describes it as lowercasing,
replacing runs of non-alphanumeric characters with a single hyphen, and
trimming leading and trailing hyphens. -/
def generateSlug (text : String) : String :=
  String.intercalate "-" (splitNonAlnum (text.toList.map Char.toLower) [])

/-- The body of the while loop of generateUniqueSlug in
src/utils/slugify.ts, with explicit fuel: the source loops
`while (await checkExists(slug)) { slug = generateSlug(text)-counter;
counter++ }`.  Fuel 0 means the loop has not terminated within the
allotted iterations. -/
def generateUniqueSlugLoop (text : String) (checkExists : String → Bool) :
    Nat → String → Nat → Option String
  | 0, _, _ => none
  | fuel + 1, slug, counter =>
    if checkExists slug then
      generateUniqueSlugLoop text checkExists fuel
        (generateSlug text ++ "-" ++ toString counter) (counter + 1)
    else
      some slug

/-- generateUniqueSlug from src/utils/slugify.ts: start from
generateSlug(text) with counter 1 and run the retry loop. -/
def generateUniqueSlug (text : String) (checkExists : String → Bool)
    (fuel : Nat) : Option String :=
  generateUniqueSlugLoop text checkExists fuel (generateSlug text) 1

/-- The candidate sequence the loop walks through: the base slug, then the
base slug with suffixes -1, -2, … (the counter is always appended to the
original slugified text, never to an already suffixed candidate). -/
def slugCandidate (text : String) : Nat → String
  | 0 => generateSlug text
  | n + 1 => generateSlug text ++ "-" ++ toString (n + 1)

/-! ## Authentication middleware (src/middleware/auth.ts) -/

/-- The user record the middleware attaches to the request (the Prisma
select of src/middleware/auth.ts, reduced to the fields the claims
mention: the id and the isActive flag). -/
structure AuthUser where
  id : Nat
  isActive : Bool
deriving DecidableEq, Repr

/-- The JavaScript startsWith test on the Authorization header, embedded
over character lists: the string s starts with the string pre. -/
def strStartsWith (s pre : String) : Bool :=
  pre.toList.isPrefixOf s.toList

/-- authenticate from src/middleware/auth.ts.  The verifyToken call and
the prisma.user.findUnique lookup are external, passed as parameters:
`verify tok = none` embeds verifyToken throwing (invalid or expired
token), and it otherwise returns the decoded userId; findUser is the
database lookup by id.  Throwing an ApiError and having the catch block
forward it to next(error) is the error branch; attaching the user and
calling next() is the ok branch. -/
def authenticate (authHeader : Option String) (verify : String → Option Nat)
    (findUser : Nat → Option AuthUser) : Except ApiErr AuthUser :=
  match authHeader with
  | none => .error ⟨401, "No token provided. Please login."⟩
  | some h =>
    if strStartsWith h "Bearer " then
      match verify (h.drop 7) with
      | none => .error ⟨401, "Invalid or expired token. Please login again."⟩
      | some userId =>
        match findUser userId with
        | none => .error ⟨401, "User not found. Please login again."⟩
        | some user =>
          if user.isActive then .ok user
          else .error ⟨403, "Your account has been deactivated."⟩
    else .error ⟨401, "No token provided. Please login."⟩

/-- optionalAuthenticate from src/middleware/auth.ts.  The ok branch
carries the optionally attached user (req.user); the inner try/catch of
the source swallows verification failures, and a user is attached only
when found and active, so every path reaches the final next() with no
error. -/
def optionalAuthenticate (authHeader : Option String)
    (verify : String → Option Nat) (findUser : Nat → Option AuthUser) :
    Except ApiErr (Option AuthUser) :=
  .ok (match authHeader with
    | none => none
    | some h =>
      if strStartsWith h "Bearer " then
        match verify (h.drop 7) with
        | none => none
        | some userId =>
          match findUser userId with
          | none => none
          | some user => if user.isActive then some user else none
      else none)

/-! ## Comment service (src/services/commentService.ts) -/

/-- Moderation status of a comment (the Prisma CommentStatus enum). -/
inductive CommentStatus where
  | PENDING
  | APPROVED
  | REJECTED
  | SPAM
deriving DecidableEq, Repr

/-- A comment row, with the fields the comment service reads or writes:
userId is none for guest comments, parentId is none for top-level
comments. -/
structure Comment where
  id : Nat
  articleId : Nat
  userId : Option Nat
  parentId : Option Nat
  content : String
  authorName : Option String
  authorEmail : Option String
  status : CommentStatus
deriving DecidableEq, Repr

/-- Truthiness of an optional string in the source's JavaScript guard
`!data.authorName`: absent and empty strings are falsy. -/
def strTruthy : Option String → Bool
  | none => false
  | some s => !s.isEmpty

/-- Truthiness of an optional number in the source's JavaScript guards
`if (data.parentId)` and `!userId`: absent and 0 are falsy. -/
def natOptTruthy : Option Nat → Bool
  | none => false
  | some n => n != 0

/-- The request body of createComment (src/types/requests.ts fields used
by the comment service). -/
structure CreateCommentRequest where
  articleId : Nat
  parentId : Option Nat
  content : String
  authorName : Option String
  authorEmail : Option String
deriving DecidableEq, Repr

/-- CommentService.createComment from src/services/commentService.ts.
The article table is embedded as the list of existing article ids and the
comment table as a list of rows; newId stands for the id Prisma assigns.
In source order: a missing article is a 404; a truthy parentId whose
comment is missing is a 404 and one from another article a 400; a guest
(falsy userId) without both name and email is a 400; otherwise the row is
inserted with status PENDING. -/
def createComment (articles : List Nat) (db : List Comment)
    (data : CreateCommentRequest) (userId : Option Nat) (newId : Nat) :
    Except ApiErr (List Comment × Comment) :=
  if !articles.contains data.articleId then
    .error ⟨404, "Article not found"⟩
  else
    let parentError : Option ApiErr :=
      if natOptTruthy data.parentId then
        match db.find? (fun c => c.id == data.parentId.getD 0) with
        | none => some ⟨404, "Parent comment not found"⟩
        | some parentComment =>
          if parentComment.articleId != data.articleId then
            some ⟨400, "Parent comment belongs to different article"⟩
          else none
      else none
    match parentError with
    | some e => .error e
    | none =>
      if !natOptTruthy userId &&
          (!strTruthy data.authorName || !strTruthy data.authorEmail) then
        .error ⟨400, "Guest comments require name and email"⟩
      else
        let comment : Comment :=
          { id := newId, articleId := data.articleId, userId := userId,
            parentId := data.parentId, content := data.content,
            authorName := data.authorName, authorEmail := data.authorEmail,
            status := .PENDING }
        .ok (db ++ [comment], comment)

/-- A reply included at the second nesting level of getArticleComments:
the Prisma include stops here, so no further replies are attached. -/
structure ReplyLevel2 where
  comment : Comment
deriving DecidableEq, Repr

/-- A reply included at the first nesting level of getArticleComments,
with its approved replies (level two). -/
structure ReplyLevel1 where
  comment : Comment
  replies : List ReplyLevel2
deriving DecidableEq, Repr

/-- A top-level comment returned by getArticleComments, with its approved
replies (level one). -/
structure TopComment where
  comment : Comment
  replies : List ReplyLevel1
deriving DecidableEq, Repr

/-- CommentService.getArticleComments from src/services/commentService.ts:
the Prisma query selects comments of the article with status APPROVED and
parentId null, and its include clause nests replies filtered to APPROVED,
and inside those once more replies filtered to APPROVED — two include
levels, nothing deeper.  Ordering (createdAt) is not modelled; the claims
are about membership. -/
def getArticleComments (db : List Comment) (articleId : Nat) :
    List TopComment :=
  (db.filter (fun c =>
      c.articleId == articleId && c.status == .APPROVED &&
      c.parentId == none)).map
    (fun c =>
      { comment := c,
        replies :=
          (db.filter (fun r =>
              r.parentId == some c.id && r.status == .APPROVED)).map
            (fun r =>
              { comment := r,
                replies :=
                  (db.filter (fun r2 =>
                      r2.parentId == some r.id &&
                      r2.status == .APPROVED)).map
                    (fun r2 => { comment := r2 }) }) })

/-- All comment ids appearing anywhere in a getArticleComments result,
at any of its three levels. -/
def collectIds (ts : List TopComment) : List Nat :=
  ts.flatMap (fun t =>
    t.comment.id :: t.replies.flatMap (fun r1 =>
      r1.comment.id :: r1.replies.map (fun r2 => r2.comment.id)))

/-- CommentService.deleteComment from src/services/commentService.ts: a
missing comment is a 404; a requester who is neither the comment's author
nor an ADMIN gets a 403; a comment with replies (the Prisma reply count,
embedded as the number of rows whose parentId is the comment) is a 400;
otherwise the row is deleted and the new table returned. -/
def deleteComment (db : List Comment) (id : Nat) (userId : Nat)
    (userRole : String) : Except ApiErr (List Comment) :=
  match db.find? (fun c => c.id == id) with
  | none => .error ⟨404, "Comment not found"⟩
  | some comment =>
    if comment.userId != some userId && userRole != "ADMIN" then
      .error ⟨403, "You can only delete your own comments"⟩
    else
      let replyCount := (db.filter (fun c => c.parentId == some id)).length
      if replyCount > 0 then
        .error ⟨400, "Cannot delete comment with " ++ toString replyCount ++
          " replies. Delete replies first."⟩
      else
        .ok (db.filter (fun c => c.id != id))

/-- A moderation-era operation on one comment, as exposed by the comment
service: approveComment, rejectComment, markAsSpam set the status, and
updateComment rewrites only the content. -/
inductive CommentOp where
  | approve
  | reject
  | markSpam
  | update (content : String)
deriving DecidableEq, Repr

/-- The status after one exposed operation, read off the Prisma update
calls of src/services/commentService.ts: approveComment writes APPROVED,
rejectComment REJECTED, markAsSpam SPAM, and updateComment leaves the
status untouched. -/
def commentStatusStep (s : CommentStatus) : CommentOp → CommentStatus
  | .approve => .APPROVED
  | .reject => .REJECTED
  | .markSpam => .SPAM
  | .update _ => s

/-- The status of a comment after a sequence of exposed operations,
starting from the PENDING status createComment writes. -/
def runCommentStatus (ops : List CommentOp) : CommentStatus :=
  ops.foldl commentStatusStep .PENDING

/-! ## Article service (src/services/articleService.ts) -/

/-- Article status (the Prisma ArticleStatus enum). -/
inductive ArticleStatus where
  | DRAFT
  | PUBLISHED
  | ARCHIVED
deriving DecidableEq, Repr

/-- The publication-relevant state of one article: its status and its
publishedAt timestamp (none embeds SQL null; instants are naturals). -/
structure ArticleState where
  status : ArticleStatus
  publishedAt : Option Nat
deriving DecidableEq, Repr

/-- The state written by ArticleService.createArticle: the source sets
`status: data.status || ArticleStatus.DRAFT` (an absent status defaults
to DRAFT) and `publishedAt: data.status === PUBLISHED ? new Date() : null`.
now is the clock reading of the new Date(). -/
def createArticleState (dataStatus : Option ArticleStatus) (now : Nat) :
    ArticleState :=
  { status := dataStatus.getD .DRAFT,
    publishedAt := if dataStatus = some .PUBLISHED then some now else none }

/-- A state-changing article operation of the service: updateArticle with
an optional new status (Prisma leaves the column unchanged when the field
is undefined), publishArticle, archiveArticle.  Each carries the clock
reading of any new Date() it takes. -/
inductive ArticleOp where
  | update (newStatus : Option ArticleStatus) (now : Nat)
  | publish (now : Nat)
  | archive
deriving DecidableEq, Repr

/-- One step of the article services on the publication state, read off
src/services/articleService.ts: updateArticle writes
`publishedAt: data.status === PUBLISHED && !existing.publishedAt ?
new Date() : existing.publishedAt`; publishArticle writes status
PUBLISHED and publishedAt new Date() unconditionally; archiveArticle
writes only the status. -/
def stepArticle (s : ArticleState) : ArticleOp → ArticleState
  | .update newStatus now =>
    { status := newStatus.getD s.status,
      publishedAt :=
        if newStatus = some .PUBLISHED ∧ s.publishedAt = none then some now
        else s.publishedAt }
  | .publish now => { status := .PUBLISHED, publishedAt := some now }
  | .archive => { s with status := .ARCHIVED }

/-- The article state after creation followed by a sequence of
operations. -/
def runArticle (dataStatus : Option ArticleStatus) (now0 : Nat)
    (ops : List ArticleOp) : ArticleState :=
  ops.foldl stepArticle (createArticleState dataStatus now0)

/-- The trace of states reached from a given state by a sequence of
operations (the state after each operation, in order). -/
def statesFrom (s : ArticleState) : List ArticleOp → List ArticleState
  | [] => []
  | op :: ops => stepArticle s op :: statesFrom (stepArticle s op) ops

/-- Every state an article passes through: the creation state followed by
the state after each subsequent operation. -/
def articleStates (dataStatus : Option ArticleStatus) (now0 : Nat)
    (ops : List ArticleOp) : List ArticleState :=
  createArticleState dataStatus now0 ::
    statesFrom (createArticleState dataStatus now0) ops

/-- A four-level comment chain on article 1, all APPROVED: a top-level
comment (id 1), a reply (id 2), a reply to the reply (id 3), and a reply
at depth three (id 4). -/
def deepReplyDb : List Comment :=
  [⟨1, 1, none, none, "top", some "G", some "g@x.com", .APPROVED⟩,
   ⟨2, 1, none, some 1, "reply", some "G", some "g@x.com", .APPROVED⟩,
   ⟨3, 1, none, some 2, "reply to reply", some "G", some "g@x.com",
     .APPROVED⟩,
   ⟨4, 1, none, some 3, "depth three", some "G", some "g@x.com",
     .APPROVED⟩]

/-! ## Theorems -/

/-- C8: for every page and limit input, including absent, zero and
negative values, getPagination returns a page of at least 1, a limit in
the interval from 1 to 100, and a skip equal to (page - 1) * limit
computed from the clamped values. -/
theorem getPagination_clamps (pageParam limitParam : Option Int) :
    1 ≤ (getPagination pageParam limitParam).page ∧
    1 ≤ (getPagination pageParam limitParam).limit ∧
    (getPagination pageParam limitParam).limit ≤ 100 ∧
    (getPagination pageParam limitParam).skip =
      ((getPagination pageParam limitParam).page - 1) *
        (getPagination pageParam limitParam).limit := by
  refine ⟨?_, ?_, ?_, rfl⟩
  · exact le_max_left 1 _
  · exact le_min (by norm_num) (le_max_left 1 _)
  · exact min_le_left 100 _

/-- A successful run of the unique-slug loop ends at a candidate the
existence check rejects: the loop only returns a slug after checkExists
answered false on it. -/
lemma generateUniqueSlugLoop_some_check (text : String)
    (check : String → Bool) :
    ∀ fuel slug counter s,
      generateUniqueSlugLoop text check fuel slug counter = some s →
      check s = false := by
  intro fuel
  induction fuel with
  | zero => intro slug counter s hs; simp [generateUniqueSlugLoop] at hs
  | succ n ih =>
    intro slug counter s hs
    rw [generateUniqueSlugLoop] at hs
    by_cases hc : check slug = true
    · rw [if_pos hc] at hs
      exact ih _ _ _ hs
    · rw [if_neg hc] at hs
      cases hs
      simpa using hc

/-- Walking the loop from the candidate at index i with counter i + 1:
when the first rejected candidate ahead is k steps away and the fuel
covers it, the loop returns that candidate. -/
lemma generateUniqueSlugLoop_reaches (text : String) (check : String → Bool) :
    ∀ k fuel i, k < fuel →
      check (slugCandidate text (i + k)) = false →
      (∀ j, j < k → check (slugCandidate text (i + j)) = true) →
      generateUniqueSlugLoop text check fuel (slugCandidate text i) (i + 1) =
        some (slugCandidate text (i + k)) := by
  intro k
  induction k with
  | zero =>
    intro fuel i hf hfree _
    obtain ⟨f, rfl⟩ : ∃ f, fuel = f + 1 := ⟨fuel - 1, by omega⟩
    have hfree' : check (slugCandidate text i) = false := by simpa using hfree
    rw [generateUniqueSlugLoop, if_neg (by simp [hfree'])]
    simp
  | succ k ih =>
    intro fuel i hf hfree hbusy
    obtain ⟨f, rfl⟩ : ∃ f, fuel = f + 1 := ⟨fuel - 1, by omega⟩
    rw [generateUniqueSlugLoop]
    have h0 : check (slugCandidate text i) = true := by
      simpa using hbusy 0 (Nat.succ_pos k)
    rw [if_pos h0]
    have hcand : generateSlug text ++ "-" ++ toString (i + 1) =
        slugCandidate text (i + 1) := rfl
    rw [hcand, show i + (k + 1) = (i + 1) + k from by omega]
    exact ih f (i + 1) (by omega)
      (by rw [show (i + 1) + k = i + (k + 1) from by omega]; exact hfree)
      (fun j hj => by
        have := hbusy (j + 1) (by omega)
        rwa [show i + (j + 1) = (i + 1) + j from by omega] at this)

/-- C1: when the candidates slugify(text), slugify(text)-1, … are rejected
by existsCheck up to index k and the candidate at index k is free (within
the allotted fuel), generateUniqueSlug returns exactly that candidate —
the counter appended to the original slugified text; the returned slug is
never one existsCheck accepted, and a true, true, true, false answer
sequence yields the base slug with suffix -3. -/
theorem generateUniqueSlug_first_free (text : String) (check : String → Bool)
    (fuel k : Nat) (hk : k < fuel)
    (hfree : check (slugCandidate text k) = false)
    (hbusy : ∀ j, j < k → check (slugCandidate text j) = true) :
    generateUniqueSlug text check fuel = some (slugCandidate text k) ∧
    (∀ s, generateUniqueSlug text check fuel = some s → check s = false) ∧
    (k = 3 → generateUniqueSlug text check fuel =
      some (generateSlug text ++ "-3")) := by
  have hmain : generateUniqueSlug text check fuel =
      some (slugCandidate text k) := by
    have := generateUniqueSlugLoop_reaches text check k fuel 0 hk
      (by simpa using hfree) (by intro j hj; simpa using hbusy j hj)
    simpa [generateUniqueSlug, slugCandidate] using this
  refine ⟨hmain,
    fun s hs => generateUniqueSlugLoop_some_check text check fuel _ _ s hs,
    fun h3 => ?_⟩
  subst h3
  rw [hmain]
  have : slugCandidate text 3 = generateSlug text ++ "-3" := by
    show generateSlug text ++ "-" ++ toString (3 : Nat) =
      generateSlug text ++ "-3"
    rw [String.append_assoc]
    rfl
  rw [this]

/-- Witness for C1: for the title Hello World and an existence check that
reports hello-world, hello-world-1 and hello-world-2 taken, the unique
slug is the candidate at index 3, namely hello-world-3. -/
theorem generateUniqueSlug_first_free_witness :
    generateUniqueSlug "Hello World"
      (fun s => s == "hello-world" || s == "hello-world-1" ||
        s == "hello-world-2") 4 =
      some (slugCandidate "Hello World" 3) ∧
    slugCandidate "Hello World" 3 = "hello-world-3" :=
  ⟨(generateUniqueSlug_first_free "Hello World"
      (fun s => s == "hello-world" || s == "hello-world-1" ||
        s == "hello-world-2") 4 3 (by decide) (by decide)
      (by intro j hj; interval_cases j <;> decide)).1,
    by decide⟩

/-- C2: the authenticate middleware rejects with 401 on a missing or
non-Bearer header, on a token that fails verification, and on a decoded
userId with no user; rejects with 403 when the user exists but is
inactive; and attaches the user and calls next with no error when the
token names an existing active user. -/
theorem authenticate_spec (hdr : Option String) (verify : String → Option Nat)
    (find : Nat → Option AuthUser) :
    ((hdr = none ∨ ∃ h, hdr = some h ∧ strStartsWith h "Bearer " = false) →
      authenticate hdr verify find =
        .error ⟨401, "No token provided. Please login."⟩) ∧
    (∀ h, hdr = some h → strStartsWith h "Bearer " = true →
      verify (h.drop 7) = none →
      authenticate hdr verify find =
        .error ⟨401, "Invalid or expired token. Please login again."⟩) ∧
    (∀ h uid, hdr = some h → strStartsWith h "Bearer " = true →
      verify (h.drop 7) = some uid → find uid = none →
      authenticate hdr verify find =
        .error ⟨401, "User not found. Please login again."⟩) ∧
    (∀ h uid u, hdr = some h → strStartsWith h "Bearer " = true →
      verify (h.drop 7) = some uid → find uid = some u →
      u.isActive = false →
      authenticate hdr verify find =
        .error ⟨403, "Your account has been deactivated."⟩) ∧
    (∀ h uid u, hdr = some h → strStartsWith h "Bearer " = true →
      verify (h.drop 7) = some uid → find uid = some u →
      u.isActive = true →
      authenticate hdr verify find = .ok u) := by
  refine ⟨?_, ?_, ?_, ?_, ?_⟩
  · rintro (rfl | ⟨h, rfl, hsw⟩)
    · rfl
    · simp [authenticate, hsw]
  · rintro h rfl hsw hv
    simp [authenticate, hsw, hv]
  · rintro h uid rfl hsw hv hf
    simp [authenticate, hsw, hv, hf]
  · rintro h uid u rfl hsw hv hf hact
    simp [authenticate, hsw, hv, hf, hact]
  · rintro h uid u rfl hsw hv hf hact
    simp [authenticate, hsw, hv, hf, hact]

/-- Witness for C2: a request with no Authorization header at all is
rejected with status 401, and a Bearer token that decodes to user 1, who
exists and is active, attaches that user. -/
theorem authenticate_spec_witness :
    authenticate none (fun _ => none) (fun _ => none) =
      .error ⟨401, "No token provided. Please login."⟩ ∧
    authenticate (some "Bearer tok") (fun _ => some 1)
      (fun _ => some ⟨1, true⟩) = .ok ⟨1, true⟩ :=
  ⟨(authenticate_spec none (fun _ => none) (fun _ => none)).1 (Or.inl rfl),
    (authenticate_spec (some "Bearer tok") (fun _ => some 1)
      (fun _ => some ⟨1, true⟩)).2.2.2.2 "Bearer tok" 1 ⟨1, true⟩ rfl
      (by decide) rfl rfl rfl⟩

/-- The optional middleware computes the same decision as the required
one: it attaches the user the required path would attach, and attaches
nothing when the required path would reject. -/
lemma optionalAuthenticate_eq (hdr : Option String)
    (verify : String → Option Nat) (find : Nat → Option AuthUser) :
    optionalAuthenticate hdr verify find =
      .ok (match authenticate hdr verify find with
        | .ok u => some u
        | .error _ => none) := by
  cases hdr with
  | none => rfl
  | some h =>
    by_cases hsw : strStartsWith h "Bearer " = true
    · cases hv : verify (h.drop 7) with
      | none => simp [optionalAuthenticate, authenticate, hsw, hv]
      | some uid =>
        cases hf : find uid with
        | none => simp [optionalAuthenticate, authenticate, hsw, hv, hf]
        | some u =>
          by_cases hact : u.isActive = true
          · simp [optionalAuthenticate, authenticate, hsw, hv, hf, hact]
          · simp only [Bool.not_eq_true] at hact
            simp [optionalAuthenticate, authenticate, hsw, hv, hf, hact]
    · simp only [Bool.not_eq_true] at hsw
      simp [optionalAuthenticate, authenticate, hsw]

/-- C7: optionalAuthenticate never surfaces an authentication error —
every run calls next with no error; it attaches a user exactly when the
required authenticate middleware would accept that user, and attaches
nothing (anonymous context) whenever the required path would reject. -/
theorem optionalAuthenticate_spec (hdr : Option String)
    (verify : String → Option Nat) (find : Nat → Option AuthUser) :
    (∃ attached, optionalAuthenticate hdr verify find = .ok attached) ∧
    (∀ u, optionalAuthenticate hdr verify find = .ok (some u) ↔
      authenticate hdr verify find = .ok u) ∧
    ((∀ u, authenticate hdr verify find ≠ .ok u) →
      optionalAuthenticate hdr verify find = .ok none) := by
  rw [optionalAuthenticate_eq hdr verify find]
  refine ⟨⟨_, rfl⟩, ?_, ?_⟩
  · intro u
    cases ha : authenticate hdr verify find with
    | ok v => simp
    | error e => simp [ha]
  · intro hrej
    cases ha : authenticate hdr verify find with
    | ok v => exact absurd ha (hrej v)
    | error e => rfl

/-- Witness for C7: with a malformed header (no Bearer prefix) the
optional middleware proceeds anonymously with no error, and with a valid
token for an active user it attaches exactly the user the required path
attaches. -/
theorem optionalAuthenticate_spec_witness :
    optionalAuthenticate (some "Token abc") (fun _ => none)
      (fun _ => none) = .ok none ∧
    optionalAuthenticate (some "Bearer tok") (fun _ => some 1)
      (fun _ => some ⟨1, true⟩) = .ok (some ⟨1, true⟩) :=
  ⟨(optionalAuthenticate_spec (some "Token abc") (fun _ => none)
      (fun _ => none)).2.2
      (by intro u; simp [authenticate, show strStartsWith "Token abc" "Bearer " = false from by decide]),
    ((optionalAuthenticate_spec (some "Bearer tok") (fun _ => some 1)
      (fun _ => some ⟨1, true⟩)).2.1 ⟨1, true⟩).2
      (by simp [authenticate,
        show strStartsWith "Bearer tok" "Bearer " = true from by decide])⟩

/-- A single exposed comment operation yields PENDING only when the
status already was PENDING: approve, reject and markSpam write other
statuses, and update leaves the status alone. -/
lemma commentStatusStep_pending (s : CommentStatus) (op : CommentOp)
    (h : s ≠ .PENDING) : commentStatusStep s op ≠ .PENDING := by
  cases op with
  | approve => simp [commentStatusStep]
  | reject => simp [commentStatusStep]
  | markSpam => simp [commentStatusStep]
  | update c => simpa [commentStatusStep] using h

/-- Folding any sequence of exposed operations cannot reach PENDING from
a non-PENDING status. -/
lemma foldl_commentStatusStep_ne_pending :
    ∀ (ops : List CommentOp) (s : CommentStatus), s ≠ .PENDING →
      List.foldl commentStatusStep s ops ≠ .PENDING := by
  intro ops
  induction ops with
  | nil => intro s h; simpa using h
  | cons op ops ih =>
    intro s h
    exact ih _ (commentStatusStep_pending s op h)

/-- C6: every comment is created with status PENDING, and once a sequence
of exposed operations (approve, reject, markSpam, update) has moved the
status away from PENDING, no further sequence of those operations ever
makes it PENDING again. -/
theorem comment_status_never_returns_to_pending (ops rest : List CommentOp)
    (h : runCommentStatus ops ≠ .PENDING) :
    (∀ arts db data userId newId newDb c,
      createComment arts db data userId newId = .ok (newDb, c) →
      c.status = .PENDING) ∧
    runCommentStatus (ops ++ rest) ≠ .PENDING := by
  constructor
  · intro arts db data userId newId newDb c hok
    simp only [createComment] at hok
    split at hok
    · simp at hok
    · split at hok
      · simp at hok
      · split at hok
        · simp at hok
        · simp only [Except.ok.injEq, Prod.mk.injEq] at hok
          obtain ⟨-, h2⟩ := hok
          subst h2
          rfl
  · rw [runCommentStatus, List.foldl_append]
    exact foldl_commentStatusStep_ne_pending rest _ h

/-- Witness for C6: a comment that was approved and then edited is still
not PENDING. -/
theorem comment_status_never_returns_to_pending_witness :
    runCommentStatus ([CommentOp.approve] ++ [CommentOp.update "edited"]) ≠
      .PENDING :=
  (comment_status_never_returns_to_pending [CommentOp.approve]
    [CommentOp.update "edited"] (by decide)).2

/-- C4: when the target comment exists and the requester is its owner or
an ADMIN, deleteComment rejects with status 400 whenever the comment has
one or more replies — returning an error and leaving the table untouched
— and deletes the row only when the reply count is zero. -/
theorem deleteComment_replies_guard (db : List Comment) (cid uid : Nat)
    (role : String) (c : Comment)
    (hfind : db.find? (fun x => x.id == cid) = some c)
    (hauth : c.userId = some uid ∨ role = "ADMIN") :
    (∀ n, (db.filter (fun x => x.parentId == some cid)).length = n + 1 →
      deleteComment db cid uid role =
        .error ⟨400, "Cannot delete comment with " ++ toString (n + 1) ++
          " replies. Delete replies first."⟩) ∧
    ((db.filter (fun x => x.parentId == some cid)).length = 0 →
      deleteComment db cid uid role =
        .ok (db.filter (fun x => x.id != cid))) := by
  have hperm : (c.userId != some uid && role != "ADMIN") = false := by
    rcases hauth with h | h <;> simp [h]
  constructor
  · intro n hn
    simp [deleteComment, hfind, hperm, hn]
  · intro h0
    simp [deleteComment, hfind, hperm, h0]

/-- Witness for C4: the owner of comment 1, which has one reply, is
refused its deletion with status 400. -/
theorem deleteComment_replies_guard_witness :
    deleteComment
      [⟨1, 1, some 5, none, "parent", none, none, .APPROVED⟩,
       ⟨2, 1, some 6, some 1, "reply", none, none, .APPROVED⟩] 1 5 "AUTHOR" =
      .error ⟨400, "Cannot delete comment with " ++ toString (0 + 1) ++
        " replies. Delete replies first."⟩ :=
  (deleteComment_replies_guard
    [⟨1, 1, some 5, none, "parent", none, none, .APPROVED⟩,
     ⟨2, 1, some 6, some 1, "reply", none, none, .APPROVED⟩] 1 5 "AUTHOR"
    ⟨1, 1, some 5, none, "parent", none, none, .APPROVED⟩ (by decide)
    (Or.inl rfl)).1 0 (by decide)

/-- C9: with the target article present, createComment rejects with 400
and inserts nothing when the caller is a guest (no authenticated userId)
missing the author name or email — provided the optional parent reference
resolves within the same article, since an unresolvable parent is its own
404 — and rejects with 400 whenever the supplied parentId names a comment
of a different article. -/
theorem createComment_guards (articles : List Nat) (db : List Comment)
    (data : CreateCommentRequest) (userId : Option Nat) (newId : Nat)
    (hart : articles.contains data.articleId = true) :
    (userId = none →
      (strTruthy data.authorName = false ∨
        strTruthy data.authorEmail = false) →
      (data.parentId = none ∨ ∃ p pc, data.parentId = some p ∧ p ≠ 0 ∧
        db.find? (fun x => x.id == p) = some pc ∧
        pc.articleId = data.articleId) →
      createComment articles db data userId newId =
        .error ⟨400, "Guest comments require name and email"⟩) ∧
    (∀ p pc, data.parentId = some p → p ≠ 0 →
      db.find? (fun x => x.id == p) = some pc →
      pc.articleId ≠ data.articleId →
      createComment articles db data userId newId =
        .error ⟨400, "Parent comment belongs to different article"⟩) := by
  have hmem : data.articleId ∈ articles := by simpa using hart
  constructor
  · rintro rfl hguest (hp | ⟨p, pc, hp, hp0, hfind, hsame⟩)
    · have hname : (!strTruthy data.authorName ||
          !strTruthy data.authorEmail) = true := by
        rcases hguest with h | h <;> simp [h]
      simp [createComment, hmem, hp, natOptTruthy, hname]
    · have hname : (!strTruthy data.authorName ||
          !strTruthy data.authorEmail) = true := by
        rcases hguest with h | h <;> simp [h]
      simp [createComment, hmem, hp, natOptTruthy, hp0, hfind, hsame, hname]
  · intro p pc hp hp0 hfind hdiff
    simp [createComment, hmem, hp, natOptTruthy, hp0, hfind, hdiff]

/-- Witness for C9: a guest comment on existing article 1 with no author
name or email is rejected with status 400. -/
theorem createComment_guards_witness :
    createComment [1] [] ⟨1, none, "hi", none, none⟩ none 7 =
      .error ⟨400, "Guest comments require name and email"⟩ :=
  (createComment_guards [1] [] ⟨1, none, "hi", none, none⟩ none 7 rfl).1
    rfl (Or.inl rfl) (Or.inl rfl)

/-- The running well-formedness of an article's publication state: a
PUBLISHED article carries a publication timestamp. -/
def PubInv (s : ArticleState) : Prop :=
  s.status = .PUBLISHED → s.publishedAt ≠ none

/-- Creation establishes the publication invariant. -/
lemma pubInv_create (ds : Option ArticleStatus) (now : Nat) :
    PubInv (createArticleState ds now) := by
  intro hpub
  cases ds with
  | none => simp [createArticleState] at hpub
  | some st => cases st <;> simp_all [createArticleState, PubInv]

/-- One step changes the publication timestamp from null to non-null
exactly when it lands the article in PUBLISHED (or it was non-null
already), provided the invariant held before. -/
lemma stepArticle_publishedAt_iff (s : ArticleState) (op : ArticleOp)
    (hs : PubInv s) :
    ((stepArticle s op).publishedAt ≠ none ↔
      s.publishedAt ≠ none ∨ (stepArticle s op).status = .PUBLISHED) := by
  cases op with
  | publish now => simp [stepArticle]
  | archive => simp [stepArticle]
  | update newStatus now =>
    cases newStatus with
    | none =>
      simp only [stepArticle, Option.getD_none]
      constructor
      · intro hne
        exact Or.inl (by simpa using hne)
      · rintro (hne | hpub)
        · simpa using hne
        · simpa using hs hpub
    | some st =>
      cases st with
      | PUBLISHED =>
        by_cases hnull : s.publishedAt = none <;>
          simp [stepArticle, hnull]
      | DRAFT => simp [stepArticle]
      | ARCHIVED => simp [stepArticle]

/-- One step preserves the publication invariant. -/
lemma pubInv_step (s : ArticleState) (op : ArticleOp) (hs : PubInv s) :
    PubInv (stepArticle s op) := by
  intro hpub
  rw [stepArticle_publishedAt_iff s op hs]
  exact Or.inr hpub

/-- Folding operations from a well-formed state: the final publication
timestamp is non-null exactly when it already was, or some intermediate
state of the run is PUBLISHED. -/
lemma foldl_publishedAt_iff :
    ∀ (ops : List ArticleOp) (s : ArticleState), PubInv s →
      ((List.foldl stepArticle s ops).publishedAt ≠ none ↔
        s.publishedAt ≠ none ∨
          ∃ s' ∈ statesFrom s ops, s'.status = .PUBLISHED) := by
  intro ops
  induction ops with
  | nil => intro s hs; simp [statesFrom]
  | cons op ops ih =>
    intro s hs
    rw [List.foldl_cons, ih (stepArticle s op) (pubInv_step s op hs)]
    rw [statesFrom]
    constructor
    · rintro (hne | ⟨s', hmem, hpub⟩)
      · rcases (stepArticle_publishedAt_iff s op hs).1 hne with hne' | hpub'
        · exact Or.inl hne'
        · exact Or.inr ⟨stepArticle s op, by simp, hpub'⟩
      · exact Or.inr ⟨s', by simp [hmem], hpub⟩
    · rintro (hne | ⟨s', hmem, hpub⟩)
      · exact Or.inl ((stepArticle_publishedAt_iff s op hs).2 (Or.inl hne))
      · rcases List.mem_cons.1 hmem with rfl | hmem'
        · exact Or.inl ((stepArticle_publishedAt_iff s op hs).2 (Or.inr hpub))
        · exact Or.inr ⟨s', hmem', hpub⟩

/-- The creation state has a publication timestamp exactly when it is
created PUBLISHED. -/
lemma createArticleState_publishedAt_iff (ds : Option ArticleStatus)
    (now : Nat) :
    ((createArticleState ds now).publishedAt ≠ none ↔
      (createArticleState ds now).status = .PUBLISHED) := by
  cases ds with
  | none => simp [createArticleState]
  | some st => cases st <;> simp [createArticleState]

/-- C5: across every state reachable through createArticle, updateArticle,
publishArticle and archiveArticle, the publishedAt timestamp is non-null
exactly when some state of the run — the creation state or a later one —
had status PUBLISHED; creation sets it exactly when the article is
created PUBLISHED, and no operation resets it to null. -/
theorem article_publishedAt_iff_ever_published (ds : Option ArticleStatus)
    (now0 : Nat) (ops : List ArticleOp) :
    ((runArticle ds now0 ops).publishedAt ≠ none ↔
      ∃ s ∈ articleStates ds now0 ops, s.status = .PUBLISHED) ∧
    ((createArticleState ds now0).publishedAt ≠ none ↔
      ds = some .PUBLISHED) ∧
    (∀ s op, s.publishedAt ≠ none →
      (stepArticle s op).publishedAt ≠ none) := by
  refine ⟨?_, ?_, ?_⟩
  · rw [runArticle,
      foldl_publishedAt_iff ops (createArticleState ds now0)
        (pubInv_create ds now0),
      articleStates]
    rw [createArticleState_publishedAt_iff]
    constructor
    · rintro (hpub | ⟨s', hmem, hpub⟩)
      · exact ⟨createArticleState ds now0, by simp, hpub⟩
      · exact ⟨s', by simp [hmem], hpub⟩
    · rintro ⟨s', hmem, hpub⟩
      rcases List.mem_cons.1 hmem with rfl | hmem'
      · exact Or.inl hpub
      · exact Or.inr ⟨s', hmem', hpub⟩
  · rw [createArticleState_publishedAt_iff]
    cases ds with
    | none => simp [createArticleState]
    | some st => cases st <;> simp [createArticleState]
  · intro s op hne
    cases op with
    | publish now => simp [stepArticle]
    | archive => simpa [stepArticle] using hne
    | update newStatus now =>
      simp only [stepArticle]
      by_cases hnull : s.publishedAt = none
      · exact absurd hnull hne
      · simp [hnull, hne]

/-- C10: publishArticle always overwrites publishedAt with the current
clock reading, even on an article that is already PUBLISHED with a
timestamp set, while updateArticle with status PUBLISHED preserves an
existing non-null publishedAt — so on an already published article the
two paths record different publication times whenever the clock has
moved. -/
theorem publishArticle_overwrites_updateArticle_preserves
    (s : ArticleState) (t now : Nat) (h : s.publishedAt = some t) :
    (stepArticle s (.publish now)).publishedAt = some now ∧
    (stepArticle s (.update (some .PUBLISHED) now)).publishedAt = some t ∧
    (t ≠ now →
      (stepArticle s (.publish now)).publishedAt ≠
        (stepArticle s (.update (some .PUBLISHED) now)).publishedAt) := by
  refine ⟨rfl, ?_, ?_⟩
  · simp [stepArticle, h]
  · intro hne
    simp [stepArticle, h]
    omega

/-- Witness for C10: an article already published at instant 1, published
again at instant 2, gets publishedAt 2 from publishArticle but keeps
publishedAt 1 under updateArticle with status PUBLISHED. -/
theorem publishArticle_overwrites_witness :
    (stepArticle ⟨.PUBLISHED, some 1⟩ (.publish 2)).publishedAt = some 2 ∧
    (stepArticle ⟨.PUBLISHED, some 1⟩
      (.update (some .PUBLISHED) 2)).publishedAt = some 1 :=
  ⟨(publishArticle_overwrites_updateArticle_preserves
      ⟨.PUBLISHED, some 1⟩ 1 2 rfl).1,
    (publishArticle_overwrites_updateArticle_preserves
      ⟨.PUBLISHED, some 1⟩ 1 2 rfl).2.1⟩

/-- A top-level approved comment of the article appears in the public
listing. -/
lemma mem_collectIds_top (db : List Comment) (aid : Nat) (c0 : Comment)
    (h0 : c0 ∈ db) (ha : c0.articleId = aid) (hs : c0.status = .APPROVED)
    (hp : c0.parentId = none) :
    c0.id ∈ collectIds (getArticleComments db aid) := by
  simp only [collectIds, getArticleComments, List.mem_flatMap, List.mem_map,
    List.mem_filter, List.mem_cons]
  refine ⟨_, ⟨c0, ⟨h0, by simp [ha, hs, hp]⟩, rfl⟩, Or.inl rfl⟩

/-- An approved first-level reply to an included top-level comment
appears in the public listing. -/
lemma mem_collectIds_reply1 (db : List Comment) (aid : Nat)
    (c0 c1 : Comment)
    (h0 : c0 ∈ db) (ha : c0.articleId = aid) (hs0 : c0.status = .APPROVED)
    (hp0 : c0.parentId = none)
    (h1 : c1 ∈ db) (hp1 : c1.parentId = some c0.id)
    (hs1 : c1.status = .APPROVED) :
    c1.id ∈ collectIds (getArticleComments db aid) := by
  simp only [collectIds, getArticleComments, List.mem_flatMap, List.mem_map,
    List.mem_filter, List.mem_cons]
  refine ⟨_, ⟨c0, ⟨h0, by simp [ha, hs0, hp0]⟩, rfl⟩, Or.inr ?_⟩
  simp only [List.mem_flatMap, List.mem_map, List.mem_filter,
    List.mem_cons]
  exact ⟨_, ⟨c1, ⟨h1, by simp [hp1, hs1]⟩, rfl⟩, Or.inl rfl⟩

/-- An approved second-level reply under included first-level and
top-level comments appears in the public listing. -/
lemma mem_collectIds_reply2 (db : List Comment) (aid : Nat)
    (c0 c1 c2 : Comment)
    (h0 : c0 ∈ db) (ha : c0.articleId = aid) (hs0 : c0.status = .APPROVED)
    (hp0 : c0.parentId = none)
    (h1 : c1 ∈ db) (hp1 : c1.parentId = some c0.id)
    (hs1 : c1.status = .APPROVED)
    (h2 : c2 ∈ db) (hp2 : c2.parentId = some c1.id)
    (hs2 : c2.status = .APPROVED) :
    c2.id ∈ collectIds (getArticleComments db aid) := by
  simp only [collectIds, getArticleComments, List.mem_flatMap, List.mem_map,
    List.mem_filter, List.mem_cons]
  refine ⟨_, ⟨c0, ⟨h0, by simp [ha, hs0, hp0]⟩, rfl⟩, Or.inr ?_⟩
  simp only [List.mem_flatMap, List.mem_map, List.mem_filter,
    List.mem_cons]
  refine ⟨_, ⟨c1, ⟨h1, by simp [hp1, hs1]⟩, rfl⟩, Or.inr ?_⟩
  simp only [List.mem_map, List.mem_filter]
  exact ⟨⟨c2⟩, ⟨c2, ⟨h2, by simp [hp2, hs2]⟩, rfl⟩, rfl⟩

/-- C3 as frozen is false on the code: in deepReplyDb all four comments
belong to article 1 and are APPROVED, the parent chain is 4 under 3 under
2 under 1, comment 3 (depth two) is listed, yet comment 4 — an APPROVED
reply at depth three whose ancestors are all APPROVED — appears nowhere
in the public listing, because the query nests the reply relation only
two include levels deep instead of recursing for every depth. -/
theorem getArticleComments_not_recursive :
    (∀ c ∈ deepReplyDb, c.articleId = 1 ∧ c.status = .APPROVED) ∧
    deepReplyDb.map Comment.parentId = [none, some 1, some 2, some 3] ∧
    3 ∈ collectIds (getArticleComments deepReplyDb 1) ∧
    4 ∉ collectIds (getArticleComments deepReplyDb 1) := by decide

/-- C3 amended: the public article-comment listing contains only APPROVED
comments at each of its levels, and nested replies are included up to two
levels below a top-level comment rather than recursively for every depth:
a top-level approved comment of the article, an approved reply to it, and
an approved reply to that reply all appear; nothing deeper is fetched. -/
theorem getArticleComments_approved_two_levels (db : List Comment)
    (aid : Nat) :
    (∀ t ∈ getArticleComments db aid,
      t.comment.status = .APPROVED ∧ t.comment.articleId = aid ∧
      t.comment.parentId = none ∧
      ∀ r1 ∈ t.replies, r1.comment.status = .APPROVED ∧
        r1.comment.parentId = some t.comment.id ∧
        ∀ r2 ∈ r1.replies, r2.comment.status = .APPROVED ∧
          r2.comment.parentId = some r1.comment.id) ∧
    (∀ c0 ∈ db, c0.articleId = aid → c0.status = .APPROVED →
      c0.parentId = none →
      c0.id ∈ collectIds (getArticleComments db aid) ∧
      ∀ c1 ∈ db, c1.parentId = some c0.id → c1.status = .APPROVED →
        c1.id ∈ collectIds (getArticleComments db aid) ∧
        ∀ c2 ∈ db, c2.parentId = some c1.id → c2.status = .APPROVED →
          c2.id ∈ collectIds (getArticleComments db aid)) := by
  constructor
  · intro t ht
    simp only [getArticleComments, List.mem_map, List.mem_filter] at ht
    obtain ⟨c, ⟨hc, hcond⟩, rfl⟩ := ht
    simp only [Bool.and_eq_true, beq_iff_eq] at hcond
    obtain ⟨⟨ha, hs⟩, hp⟩ := hcond
    refine ⟨hs, ha, by simpa using hp, ?_⟩
    intro r1 hr1
    simp only [List.mem_map, List.mem_filter] at hr1
    obtain ⟨r, ⟨hr, hrcond⟩, rfl⟩ := hr1
    simp only [Bool.and_eq_true, beq_iff_eq] at hrcond
    obtain ⟨hrp, hrs⟩ := hrcond
    refine ⟨hrs, hrp, ?_⟩
    intro r2 hr2
    simp only [List.mem_map, List.mem_filter] at hr2
    obtain ⟨r2c, ⟨hr2c, hr2cond⟩, rfl⟩ := hr2
    simp only [Bool.and_eq_true, beq_iff_eq] at hr2cond
    exact ⟨hr2cond.2, hr2cond.1⟩
  · intro c0 h0 ha hs0 hp0
    refine ⟨mem_collectIds_top db aid c0 h0 ha hs0 hp0, ?_⟩
    intro c1 h1 hp1 hs1
    refine ⟨mem_collectIds_reply1 db aid c0 c1 h0 ha hs0 hp0 h1 hp1 hs1, ?_⟩
    intro c2 h2 hp2 hs2
    exact mem_collectIds_reply2 db aid c0 c1 c2 h0 ha hs0 hp0 h1 hp1 hs1
      h2 hp2 hs2

/-- Witness for the amended C3: in deepReplyDb the approved reply with id
2 (one level below top-level comment 1) is listed publicly. -/
theorem getArticleComments_approved_two_levels_witness :
    2 ∈ collectIds (getArticleComments deepReplyDb 1) :=
  (((getArticleComments_approved_two_levels deepReplyDb 1).2
      ⟨1, 1, none, none, "top", some "G", some "g@x.com", .APPROVED⟩
      (by decide) rfl rfl rfl).2
      ⟨2, 1, none, some 1, "reply", some "G", some "g@x.com", .APPROVED⟩
      (by decide) rfl rfl).1
